import Mathlib

/-!
Verification of the AdministerBack financial back-office API.

This file gives a shallow embedding of the access-control and
allocation-consistency core of the repository: the role / fund-grant data
model, the admin check and fund-scope gate (`src/permissions.ts`,
`src/middleware/requireRole.ts`), the transaction POST / PATCH pipelines
(`src/routes/transactions.ts`), the per-request transactional scope
(`src/db.ts` `withUser`), the CSV import pipeline with its loose amount
parser (`src/routes/transactions_import.ts`), the list-query visibility
predicates (`src/routes/transactions.ts`, `facturas.ts`, `payments.ts`,
`liquidaciones.ts`), and the settlement `total_final` computation
(`src/routes/liquidaciones.ts`).

JavaScript numbers are modelled as rationals (`ℚ`); SQL uuids, dates and
ids as strings; fallible handlers return `Except` of an HTTP-style error;
the statements a handler would execute are reified as a `Stmt` list so that
"no insert runs before this rejection" and "all-or-nothing commit" are
statable.
-/

namespace AdministerBack

/-! ## Access-control data model -/

/-- Scope of a role's grant over a fund (`role_fund_access.scope`,
an enum of exactly `read`, `write`, `admin`). -/
inductive Scope where
  | read
  | write
  | admin
deriving DecidableEq, Repr

/-- The relational tables the authorization logic reads:
`app.user_roles (user_id, role_id)`, `app.roles (id, name)` and
`app.role_fund_access (role_id, fund_id, scope)`. -/
structure AccessDB where
  userRoles : List (String × String)
  roleNames : List (String × String)
  roleFundAccess : List (String × String × Scope)
deriving Repr

/-- SQL `lower(s) = t`, computed on the character list. -/
def lowerEq (s t : String) : Bool :=
  s.data.map Char.toLower == t.data

/-- `isAdmin` from `src/routes/transactions.ts` (and the `me`/`is_admin`
CTEs of every list query): the user holds some role whose lowercased name
is `admin` or `owner`. -/
def isAdmin (db : AccessDB) (u : String) : Bool :=
  db.userRoles.any fun p =>
    p.1 == u && db.roleNames.any fun r =>
      r.1 == p.2 && (lowerEq r.2 "admin" || lowerEq r.2 "owner")

/-- Modelled from the spec: the database view `app.v_effective_fund_access`
is not part of src/ (it lives in the database schema). Per the spec, it
maps `(user, fund)` to the highest scope granted through any of the user's
roles. Membership of a `(user, fund)` pair in the view is therefore:
some role of the user grants some scope on the fund. -/
def hasEffectiveAccess (db : AccessDB) (u f : String) : Bool :=
  db.userRoles.any fun p =>
    p.1 == u && db.roleFundAccess.any fun g =>
      g.1 == p.2 && g.2.1 == f

/-- Modelled from the spec: a `(user, fund)` row of
`app.v_effective_fund_access` satisfies `scope in ('write','admin')`
exactly when some role of the user grants `write` or `admin` on the fund
(the view's highest-scope aggregation reaches `write` or above iff some
grant is `write` or `admin`). -/
def hasWriteAccess (db : AccessDB) (u f : String) : Bool :=
  db.userRoles.any fun p =>
    p.1 == u && db.roleFundAccess.any fun g =>
      g.1 == p.2 && g.2.1 == f &&
        (g.2.2 == Scope.write || g.2.2 == Scope.admin)

/-- The `allowed_funds` CTE shared by the facturas, payments and
liquidaciones list queries: distinct funds granted to the user through
`app.role_fund_access` with `scope in ('read','write','admin')`. -/
def allowedFund (db : AccessDB) (u f : String) : Bool :=
  db.userRoles.any fun p =>
    p.1 == u && db.roleFundAccess.any fun g =>
      g.1 == p.2 && g.2.1 == f &&
        (g.2.2 == Scope.read || g.2.2 == Scope.write || g.2.2 == Scope.admin)

/-! ## Fund-scope gate (`src/permissions.ts` `assertWriteForFunds`) -/

/-- `count(distinct fund_id)` over the effective-access view restricted to
the requested funds and `scope in ('write','admin')`. -/
def grantedWriteCount (db : AccessDB) (u : String) (fundIds : List String) : Nat :=
  (fundIds.dedup.filter fun f => hasWriteAccess db u f).length

/-- Outcome of `assertWriteForFunds`: whether the scope query was executed
at all, and whether the gate passed (in the source, failure raises a
status-403 error). -/
structure GateResult where
  queried : Bool
  ok : Bool
deriving DecidableEq, Repr

/-- `assertWriteForFunds` from `src/permissions.ts`: empty input returns
immediately without querying; otherwise the gate passes iff the count of
distinct requested funds granted `write`/`admin` equals the length of the
requested list. -/
def assertWriteForFunds (db : AccessDB) (u : String) (fundIds : List String) : GateResult :=
  if fundIds.length = 0 then ⟨false, true⟩
  else ⟨true, grantedWriteCount db u fundIds == fundIds.length⟩

/-! ## Transaction write pipelines (`src/routes/transactions.ts`) -/

/-- Transaction type enum `app.tx_type` (`'credit' | 'debit'`). -/
inductive TxType where
  | credit
  | debit
deriving DecidableEq, Repr

/-- One element of the `allocations` array: `{ fund_id, ratio }`. -/
structure AllocIn where
  fund_id : String
  ratio : ℚ
deriving DecidableEq, Repr

/-- The zod-validated body of `POST /transactions` (`TxInput`). Fields the
schema marks optional are `Option`s; `description`/`category_id` are
nullable-and-optional, collapsed here to the value the handler passes on
(`x ?? null`). -/
structure TxInput where
  account_id : String
  tx_date : String
  description : Option String
  amount : ℚ
  type_ : TxType
  fund_id : Option String
  category_id : Option String
  allocations : Option (List AllocIn)
deriving Repr

/-- The zod-validated body of `PATCH /transactions/:id`
(`TxInput.partial()`): every field optional. For `description` and
`category_id` the outer `Option` is field presence, the inner one is the
null. -/
structure TxPatch where
  account_id : Option String
  tx_date : Option String
  description : Option (Option String)
  amount : Option ℚ
  type_ : Option TxType
  fund_id : Option String
  category_id : Option (Option String)
  allocations : Option (List AllocIn)
deriving Repr

/-- The values bound into the `update app.bank_transactions` statement
(`$2`..`$7`, each `coalesce`d with the current column). -/
structure UpdatePatch where
  account_id : Option String
  tx_date : Option String
  description : Option String
  amount : Option ℚ
  type_ : Option TxType
  category_id : Option String
deriving DecidableEq, Repr

/-- The parameters the PATCH handler passes to its update statement:
`body.x ?? null` for each column. -/
def updateFieldsOf (body : TxPatch) : UpdatePatch :=
  ⟨body.account_id, body.tx_date, body.description.getD none,
   body.amount, body.type_, body.category_id.getD none⟩

/-- A mutating SQL statement executed by a handler, reified. -/
inductive Stmt where
  | insertTx (id account_id tx_date : String) (description : Option String)
      (amount : ℚ) (type_ : TxType) (category_id : Option String)
  | insertAlloc (txId fundId : String) (ratio : ℚ)
  | updateTx (txId : String) (p : UpdatePatch)
  | deleteAllocs (txId : String)
deriving DecidableEq, Repr

/-- An HTTP-style error thrown by a handler (`e.status`, `e.message`). -/
structure ApiError where
  status : Nat
  message : String
deriving DecidableEq, Repr

/-- The effective allocation set built by `POST /transactions`:
the `allocations` array when it is a non-empty array, else the
`fund_id` shortcut as a single ratio-1 allocation, else empty. -/
def effectiveAllocs (allocations : Option (List AllocIn)) (fund_id : Option String) :
    List AllocIn :=
  let a := match allocations with
    | some l => l
    | none => []
  if a.length = 0 then
    match fund_id with
    | some f => [⟨f, 1⟩]
    | none => a
  else a

/-- `allocations.reduce((acc, a) => acc + Number(a.ratio), 0)`. -/
def ratioSum (l : List AllocIn) : ℚ :=
  (l.map fun a => a.ratio).sum

/-- The ratio-sum tolerance `1e-9`. -/
def tol : ℚ := 1 / 1000000000

/-- The `POST /transactions` handler after zod parsing, as a function from
the request body to either the thrown error or the list of statements the
single `withUser` unit executes. `freshId` stands for the id the
`insert ... returning id` generates. -/
def postTransaction (db : AccessDB) (u : String) (input : TxInput) (freshId : String) :
    Except ApiError (List Stmt) :=
  let allocations := effectiveAllocs input.allocations input.fund_id
  if allocations.length = 0 then
    .error ⟨400, "a fund is required (use fund_id or allocations)"⟩
  else if |ratioSum allocations - 1| > tol then
    .error ⟨400, "allocations ratio sum must be 1"⟩
  else
    let fundIds := (allocations.map fun a => a.fund_id).dedup
    if (assertWriteForFunds db u fundIds).ok then
      .ok (Stmt.insertTx freshId input.account_id input.tx_date input.description
             input.amount input.type_ input.category_id
           :: allocations.map fun a => Stmt.insertAlloc freshId a.fund_id a.ratio)
    else
      .error ⟨403, "forbidden: missing write/admin on one or more funds"⟩

/-- The replacement allocation set the PATCH handler computes (`newAlloc`):
`fund_id` wins with a single ratio-1 allocation, else the `allocations`
array if sent, else no reassignment. Validation of the array happens in
`patchTransaction`, not here. -/
def effectiveNewAlloc (body : TxPatch) : Option (List AllocIn) :=
  match body.fund_id with
  | some f => some [⟨f, 1⟩]
  | none => body.allocations

/-- Shared tail of the PATCH handler once `newAlloc` is settled: optional
fund-scope gate, the base update, and — when reassigning — delete-all then
reinsert of the allocation rows. -/
def patchWithAlloc (db : AccessDB) (u txId : String) (body : TxPatch)
    (newAlloc : Option (List AllocIn)) : Except ApiError (List Stmt) :=
  match newAlloc with
  | some l =>
    if (assertWriteForFunds db u ((l.map fun a => a.fund_id).dedup)).ok then
      .ok (Stmt.updateTx txId (updateFieldsOf body)
           :: Stmt.deleteAllocs txId
           :: l.map fun a => Stmt.insertAlloc txId a.fund_id a.ratio)
    else
      .error ⟨403, "forbidden: missing write/admin on one or more funds"⟩
  | none => .ok [Stmt.updateTx txId (updateFieldsOf body)]

/-- The `PATCH /transactions/:id` handler after zod parsing: computes
`newAlloc` (fund_id shortcut first, else the allocations array with
emptiness and ratio-sum validation), then the statement list of the
`withUser` unit. -/
def patchTransaction (db : AccessDB) (u txId : String) (body : TxPatch) :
    Except ApiError (List Stmt) :=
  match body.fund_id with
  | some f => patchWithAlloc db u txId body (some [⟨f, 1⟩])
  | none =>
    match body.allocations with
    | some l =>
      if l.length = 0 then .error ⟨400, "allocations cannot be empty"⟩
      else if |ratioSum l - 1| > tol then
        .error ⟨400, "allocations ratio sum must be 1"⟩
      else patchWithAlloc db u txId body (some l)
    | none => patchWithAlloc db u txId body none

/-! ## Per-request transactional scope (`src/db.ts` `withUser`)

`withUser` wraps the handler's statements in `begin` … `commit`, and any
thrown error triggers `rollback`: the state either advances by the whole
statement list or not at all. Failure of an individual statement is
modelled by an oracle `fails : Stmt → Bool`. -/

/-- A row of `app.bank_transactions`. -/
structure TxRow where
  id : String
  account_id : String
  tx_date : String
  description : Option String
  amount : ℚ
  type_ : TxType
  category_id : Option String
deriving DecidableEq, Repr

/-- A row of `app.transaction_allocations`. -/
structure AllocRow where
  txId : String
  fundId : String
  ratio : ℚ
deriving DecidableEq, Repr

/-- The two tables the transaction pipelines mutate. -/
structure DbState where
  txs : List TxRow
  allocs : List AllocRow
deriving DecidableEq, Repr

/-- Effect of one statement on the database state. -/
def applyStmt (s : DbState) : Stmt → DbState
  | .insertTx id acc d desc amt ty cat =>
    { s with txs := s.txs ++ [⟨id, acc, d, desc, amt, ty, cat⟩] }
  | .insertAlloc txId fundId ratio =>
    { s with allocs := s.allocs ++ [⟨txId, fundId, ratio⟩] }
  | .updateTx txId p =>
    { s with txs := s.txs.map fun r =>
        if r.id == txId then
          { r with
            account_id := p.account_id.getD r.account_id
            tx_date := p.tx_date.getD r.tx_date
            description := match p.description with
              | some d => some d
              | none => r.description
            amount := p.amount.getD r.amount
            type_ := p.type_.getD r.type_
            category_id := match p.category_id with
              | some c => some c
              | none => r.category_id }
        else r }
  | .deleteAllocs txId =>
    { s with allocs := s.allocs.filter fun r => !(r.txId == txId) }

/-- Run the statements sequentially; `none` signals a statement-level
failure (which in the source raises and reaches `withUser`'s catch). -/
def runStmts (fails : Stmt → Bool) : DbState → List Stmt → Option DbState
  | s, [] => some s
  | s, st :: rest =>
    if fails st then none else runStmts fails (applyStmt s st) rest

/-- `withUser` semantics over a handler outcome: a thrown validation /
authorization error commits nothing; a statement list commits in full or,
on any statement failure, rolls back to the initial state. Returns the
final state and the surfaced error, if any. -/
def withUserRun (fails : Stmt → Bool) (s0 : DbState)
    (r : Except ApiError (List Stmt)) : DbState × Option ApiError :=
  match r with
  | .error e => (s0, some e)
  | .ok stmts =>
    match runStmts fails s0 stmts with
    | some s1 => (s1, none)
    | none => (s0, some ⟨500, "db error"⟩)

/-- The allocation rows of one transaction. -/
def allocsFor (s : DbState) (txId : String) : List AllocRow :=
  s.allocs.filter fun r => r.txId == txId

/-! ## Loose amount parser (`src/routes/transactions_import.ts`
`parseAmountLoose`)

JavaScript strings are modelled as `List Char`; `Number(s)` as
`jsNumber`, covering the decimal forms reachable after the separator
normalization (sign, integer digits, one optional dot, fraction digits;
the empty string is 0; anything else is NaN, i.e. `none`). -/

/-- Characters kept by `s.replace(/[^\d.,-]/g, '')`. -/
def isKept (c : Char) : Bool :=
  c.isDigit || c == '.' || c == ',' || c == '-'

/-- `String.prototype.lastIndexOf` for a single character: the greatest
index of an occurrence, `-1` when absent. -/
def lastIndexOf (c : Char) : List Char → Int
  | [] => -1
  | x :: xs =>
    let r := lastIndexOf c xs
    if r ≥ 0 then r + 1 else if x == c then 0 else -1

/-- `s.replace(a, b)` with one-character pattern: replaces only the first
occurrence. -/
def replaceFirst (a b : Char) : List Char → List Char
  | [] => []
  | x :: xs => if x == a then b :: xs else x :: replaceFirst a b xs

/-- Split at the first `'.'`; the second component is `none` when there is
no dot. -/
def splitOnDot : List Char → List Char × Option (List Char)
  | [] => ([], none)
  | x :: xs =>
    if x == '.' then ([], some xs)
    else
      let p := splitOnDot xs
      (x :: p.1, p.2)

/-- Numeric value of a digit character. -/
def digitVal (c : Char) : ℚ :=
  ((c.toNat - '0'.toNat : ℕ) : ℚ)

/-- Value of a digit string read in base 10. -/
def digitsVal (l : List Char) : ℚ :=
  l.foldl (fun acc c => acc * 10 + digitVal c) 0

/-- `Number` on an unsigned candidate: digits with at most one dot, at
least one digit overall. -/
def jsNumAbs (l : List Char) : Option ℚ :=
  match splitOnDot l with
  | (ip, none) =>
    if ip ≠ [] && ip.all Char.isDigit then some (digitsVal ip) else none
  | (ip, some fp) =>
    if (ip ≠ [] || fp ≠ []) && ip.all Char.isDigit && fp.all Char.isDigit then
      some (digitsVal ip + digitsVal fp / 10 ^ fp.length)
    else none

/-- `Number(s)` on the strings reachable in `parseAmountLoose`:
the empty string is `0`, a leading `'-'` negates, otherwise `jsNumAbs`. -/
def jsNumber (l : List Char) : Option ℚ :=
  match l with
  | [] => some 0
  | x :: xs =>
    if x == '-' then (jsNumAbs xs).map fun q => -q
    else jsNumAbs l

/-- `parseAmountLoose` on the trimmed character list: strip to
digits/dot/comma/minus, then disambiguate — with both separators present
the one occurring last is decimal and the other is stripped; with only
commas present the first comma becomes the decimal dot; otherwise commas
are stripped and any dot is the decimal separator. -/
def parseAmountLooseL (l : List Char) : Option ℚ :=
  if l = [] then none
  else
    let s := l.filter isKept
    let hasDot := s.contains '.'
    let hasComma := s.contains ','
    let t :=
      if hasDot && hasComma then
        if lastIndexOf ',' s > lastIndexOf '.' s then
          replaceFirst ',' '.' (s.filter fun c => !(c == '.'))
        else s.filter fun c => !(c == ',')
      else if hasComma then
        replaceFirst ',' '.' (s.filter fun c => !(c == '.'))
      else s.filter fun c => !(c == ',')
    jsNumber t

/-- `String.prototype.trim`, modelled on the character list. -/
def jsTrim (l : List Char) : List Char :=
  ((l.dropWhile Char.isWhitespace).reverse.dropWhile Char.isWhitespace).reverse

/-- `parseAmountLoose` on a string cell: `String(v).trim()`, null for the
empty result, then the list-level parser. -/
def parseAmountLoose (s : String) : Option ℚ :=
  parseAmountLooseL (jsTrim s.data)

/-! ## CSV import pipeline (`src/routes/transactions_import.ts`) -/

/-- Hexadecimal digit. -/
def isHexDigit (c : Char) : Bool :=
  c.isDigit || ('a' ≤ c && c ≤ 'f') || ('A' ≤ c && c ≤ 'F')

/-- Split a character list on a separator character. -/
def splitOnChar (sep : Char) : List Char → List (List Char)
  | [] => [[]]
  | x :: xs =>
    let r := splitOnChar sep xs
    if x == sep then [] :: r
    else
      match r with
      | [] => [[x]]
      | h :: t => (x :: h) :: t

/-- The zod `uuid` check (zod is an external collaborator; its validator
is modelled as the standard 8-4-4-4-12 hexadecimal format). -/
def isUuid (s : String) : Bool :=
  match splitOnChar '-' s.data with
  | [a, b, c, d, e] =>
    a.length == 8 && b.length == 4 && c.length == 4 && d.length == 4 &&
    e.length == 12 && (a ++ b ++ c ++ d ++ e).all isHexDigit
  | _ => false

/-- The schema's date check `^\d{4}-\d{2}-\d{2}$`. -/
def isDateStr (s : String) : Bool :=
  match s.data with
  | [a, b, c, d, '-', e, f, '-', g, h] =>
    a.isDigit && b.isDigit && c.isDigit && d.isDigit &&
    e.isDigit && f.isDigit && g.isDigit && h.isDigit
  | _ => false

/-- One raw CSV record as handed over by the csv parser (header-named
columns; a missing column is `none`). -/
structure RawRow where
  account_id : Option String
  date : Option String
  tx_date : Option String
  description : Option String
  amount : Option String
  type_ : Option String
  category_id : Option String
  fund_id : Option String
deriving Repr

/-- A record that passed the `Row` zod schema. -/
structure CsvRow where
  account_id : String
  date : String
  description : Option String
  amount : ℚ
  type_ : TxType
  category_id : Option String
  fund_id : String
deriving DecidableEq, Repr

/-- The candidate `date` column: `raw.date ?? raw.tx_date`. -/
def csvDateOf (raw : RawRow) : Option String :=
  match raw.date with
  | some d => some d
  | none => raw.tx_date

/-- The candidate amount: `parseAmountLoose(raw.amount)`. -/
def csvAmountOf (raw : RawRow) : Option ℚ :=
  match raw.amount with
  | some a => parseAmountLoose a
  | none => none

/-- The candidate type: `String(raw.type ?? '').toLowerCase()` against the
`credit`/`debit` enum. -/
def csvTypeOf (raw : RawRow) : Option TxType :=
  let t := (raw.type_.getD "").data.map Char.toLower
  if t = "credit".data then some TxType.credit
  else if t = "debit".data then some TxType.debit
  else none

/-- The candidate category: `raw.category_id || null` (the empty string is
falsy). -/
def csvCategoryOf (raw : RawRow) : Option String :=
  match raw.category_id with
  | some c => if c = "" then none else some c
  | none => none

/-- Join issue messages with `"; "` (the handler's
`issues.map(...).join('; ')`). -/
def joinIssues : List String → String
  | [] => ""
  | [m] => m
  | m :: rest => m ++ "; " ++ joinIssues rest

/-- The field-level issues of one record, in schema order. -/
def rowIssues (raw : RawRow) : List String :=
  (match raw.account_id with
   | some a => if isUuid a then [] else ["account_id: Invalid uuid"]
   | none => ["account_id: Required"]) ++
  (match csvDateOf raw with
   | some d => if isDateStr d then [] else ["date: Invalid"]
   | none => ["date: Required"]) ++
  (match csvAmountOf raw with
   | some q => if q > 0 then [] else ["amount: Number must be greater than 0"]
   | none => ["amount: Required"]) ++
  (match csvTypeOf raw with
   | some _ => []
   | none => ["type: Invalid enum value"]) ++
  (match csvCategoryOf raw with
   | some c => if isUuid c then [] else ["category_id: Invalid uuid"]
   | none => []) ++
  (match raw.fund_id with
   | some f => if isUuid f then [] else ["fund_id: Invalid uuid"]
   | none => ["fund_id: Required"])

/-- `Row.safeParse` on one normalized record: the parsed row, or the
joined issue messages. -/
def validateRow (raw : RawRow) : Except String CsvRow :=
  match raw.account_id, csvDateOf raw, csvAmountOf raw, csvTypeOf raw, raw.fund_id with
  | some a, some d, some q, some ty, some f =>
    if isUuid a && isDateStr d && decide (q > 0) &&
       (match csvCategoryOf raw with
        | some c => isUuid c
        | none => true) && isUuid f then
      .ok ⟨a, d, raw.description, q, ty, csvCategoryOf raw, f⟩
    else .error (joinIssues (rowIssues raw))
  | _, _, _, _, _ => .error (joinIssues (rowIssues raw))

/-- The error report of a batch: for every failing record, its 1-based CSV
line number `index + 2` (offset by the header row) and its message. -/
def importErrors (raws : List RawRow) : List (Nat × String) :=
  raws.enum.filterMap fun p =>
    match validateRow p.2 with
    | .error m => some (p.1 + 2, m)
    | .ok _ => none

/-- The records that pass validation, with their original indices. -/
def importValidRows (raws : List RawRow) : List (Nat × CsvRow) :=
  raws.enum.filterMap fun p =>
    match validateRow p.2 with
    | .ok r => some (p.1, r)
    | .error _ => none

/-- The statements the non-dry-run insert loop executes: per row, one
transaction insert (with `Math.abs(amount)`) and one ratio-`1.0`
allocation insert to the row's `fund_id`. `freshId i` stands for the
generated id of row `i`'s transaction. -/
def importStmts (freshId : Nat → String) (raws : List RawRow) : List Stmt :=
  (importValidRows raws).flatMap fun p =>
    [Stmt.insertTx (freshId p.1) p.2.account_id p.2.date p.2.description
       |p.2.amount| p.2.type_ p.2.category_id,
     Stmt.insertAlloc (freshId p.1) p.2.fund_id 1]

/-- Outcome of `POST /transactions/import`. -/
inductive ImportResult where
  | invalid (errors : List (Nat × String)) (valid : Nat)
  | okDry (valid : Nat)
  | okInserted (stmts : List Stmt) (inserted : Nat)
deriving DecidableEq, Repr

/-- The import handler after CSV parsing: validate every record, report
all errors with status 422, honour `dry_run`, else emit the batch insert
statements (executed in a single begin/commit/rollback unit). The caller's
identity and grants (`db`, `u`) are parameters of the route but the
handler consults neither. -/
def importCSV (db : AccessDB) (u : String) (freshId : Nat → String)
    (raws : List RawRow) (dryRun : Bool) : ImportResult :=
  let errors := importErrors raws
  let valid := (importValidRows raws).length
  if errors ≠ [] then .invalid errors valid
  else if dryRun then .okDry valid
  else .okInserted (importStmts freshId raws) valid

/-! ## List-query visibility

Each list query conjoins an access-control condition with the optional
request filters (`estado`, date ranges, free-text search, …). The rows are
modelled by their id and `fund_id` — the only columns the access condition
reads — and the assembled optional-filter fragment is a predicate
parameter `filt`. -/

/-- A row of `app.v_tx_allocated` as seen by the access condition of
`GET /transactions`. -/
structure TxViewRow where
  transaction_id : String
  fund_id : String
deriving DecidableEq, Repr

/-- A row of `app.facturas` as seen by the access condition. -/
structure FacturaRow where
  id : String
  fund_id : String
deriving DecidableEq, Repr

/-- A row of `app.payments` as seen by the access condition. -/
structure PaymentRow where
  id : String
  fund_id : String
deriving DecidableEq, Repr

/-- A row of `app.liquidaciones_resumen` as seen by the access condition. -/
structure LiqRow where
  id : String
  fund_id : String
deriving DecidableEq, Repr

/-- `GET /transactions`: `where (ia.ok = true or efa.user_id is not null)
and <filters>`, the effective-access join keyed on the row's fund. -/
def listTransactionsQ (db : AccessDB) (u : String) (filt : TxViewRow → Bool)
    (rows : List TxViewRow) : List TxViewRow :=
  rows.filter fun r => (isAdmin db u || hasEffectiveAccess db u r.fund_id) && filt r

/-- `GET /facturas`: `where (me.is_admin or f.fund_id in (select fund_id
from allowed_funds)) and <filters>`. -/
def listFacturasQ (db : AccessDB) (u : String) (filt : FacturaRow → Bool)
    (rows : List FacturaRow) : List FacturaRow :=
  rows.filter fun r => (isAdmin db u || allowedFund db u r.fund_id) && filt r

/-- `GET /payments`: same access condition as facturas. -/
def listPaymentsQ (db : AccessDB) (u : String) (filt : PaymentRow → Bool)
    (rows : List PaymentRow) : List PaymentRow :=
  rows.filter fun r => (isAdmin db u || allowedFund db u r.fund_id) && filt r

/-- `GET /liquidaciones`: same access condition, applied after the
filtered `base` CTE. -/
def listLiquidacionesQ (db : AccessDB) (u : String) (filt : LiqRow → Bool)
    (rows : List LiqRow) : List LiqRow :=
  rows.filter fun r => (isAdmin db u || allowedFund db u r.fund_id) && filt r

/-! ## Settlement totals (`src/routes/liquidaciones.ts`) -/

/-- Postgres `round(x, 2)` on numerics: half away from zero, two decimal
places. -/
def round2 (q : ℚ) : ℚ :=
  (if q ≥ 0 then (⌊q * 100 + 1 / 2⌋ : ℤ) else -⌊-(q * 100) + 1 / 2⌋) / 100

/-- The stored data of one settlement: header amounts and the five
line-item tables (`liquidacion_facturas`, `_gastos`, `_trabajos`,
`_saldos_positivos`, `_saldos_negativos`), each row a detail/numero with a
monto. -/
structure LiqState where
  ingreso_banco : ℚ
  impositivo : ℚ
  facturas : List (String × ℚ)
  gastos : List (String × ℚ)
  trabajos : List (String × ℚ)
  saldosPositivos : List (String × ℚ)
  saldosNegativos : List (String × ℚ)
deriving Repr

/-- Sum of the montos of a line-item table. -/
def sumMontos (l : List (String × ℚ)) : ℚ :=
  (l.map fun p => p.2).sum

/-- Modelled from the spec: the view `app.liquidaciones_resumen` is not in
src/; per the spec it exposes, per settlement, the subtotal of each
line-item table as the sum of that table's rows. -/
def subtotalGastos (l : LiqState) : ℚ := sumMontos l.gastos

/-- Modelled from the spec: `liquidaciones_resumen.subtotal_trabajos`. -/
def subtotalTrabajos (l : LiqState) : ℚ := sumMontos l.trabajos

/-- Modelled from the spec: `liquidaciones_resumen.saldos_positivos`. -/
def subtotalSaldosPositivos (l : LiqState) : ℚ := sumMontos l.saldosPositivos

/-- Modelled from the spec: `liquidaciones_resumen.saldos_negativos`. -/
def subtotalSaldosNegativos (l : LiqState) : ℚ := sumMontos l.saldosNegativos

/-- `total_final` as computed by the `GET /liquidaciones` list query from
the header columns and the resumen subtotals, never read from storage. -/
def listTotalFinal (l : LiqState) : ℚ :=
  round2 (l.ingreso_banco - l.impositivo - subtotalGastos l - subtotalTrabajos l
          - subtotalSaldosNegativos l + subtotalSaldosPositivos l)

/-- `total_final` as computed by the `GET /liquidaciones/:id` detail
query. -/
def detailTotalFinal (l : LiqState) : ℚ :=
  round2 (l.ingreso_banco - l.impositivo - subtotalGastos l - subtotalTrabajos l
          - subtotalSaldosNegativos l + subtotalSaldosPositivos l)

/-! ## Theorems -/

/-- C10: the fund-scope gate called with an empty fund set succeeds
immediately — no scope query is performed and no error is raised, for
every user and database. -/
theorem C10_empty_fund_set_passes_gate (db : AccessDB) (u : String) :
    (assertWriteForFunds db u []).queried = false
    ∧ (assertWriteForFunds db u []).ok = true :=
  ⟨rfl, rfl⟩

/-- C9: for both the settlement list and detail reads, the reported
`total_final` equals `ingreso_banco` minus `impositivo` minus the sums of
the expense, work and negative-balance line amounts plus the sum of the
positive-balance line amounts, rounded to 2 decimals, recomputed from the
stored rows (the `LiqState` has no persisted total column). -/
theorem C9_total_final_formula (l : LiqState) :
    listTotalFinal l =
      round2 (l.ingreso_banco - l.impositivo - sumMontos l.gastos
              - sumMontos l.trabajos - sumMontos l.saldosNegativos
              + sumMontos l.saldosPositivos)
    ∧ detailTotalFinal l = listTotalFinal l :=
  ⟨rfl, rfl⟩

/-- C2: the effective allocation set of `POST /transactions` is the
`allocations` array when non-empty, else the `fund_id` shortcut as a
single ratio-1 allocation; when both are missing the request fails with
status 400 and no statement (hence no transaction row) is produced. -/
theorem C2_effective_allocation_set (db : AccessDB) (u : String) (input : TxInput)
    (freshId : String) :
    (∀ l, input.allocations = some l → l ≠ [] →
      effectiveAllocs input.allocations input.fund_id = l)
    ∧ (∀ f, (input.allocations = none ∨ input.allocations = some []) →
      input.fund_id = some f →
      effectiveAllocs input.allocations input.fund_id = [⟨f, 1⟩])
    ∧ ((input.allocations = none ∨ input.allocations = some []) →
      input.fund_id = none →
      postTransaction db u input freshId =
        .error ⟨400, "a fund is required (use fund_id or allocations)"⟩) := by
  refine ⟨?_, ?_, ?_⟩
  · intro l hl hne
    rw [hl]
    simp [effectiveAllocs, List.length_eq_zero, hne]
  · intro f hall hf
    rcases hall with h | h <;> rw [h, hf] <;> simp [effectiveAllocs]
  · intro hall hf
    have he : effectiveAllocs input.allocations input.fund_id = [] := by
      rcases hall with h | h <;> rw [h, hf] <;> simp [effectiveAllocs]
    rw [postTransaction, he]
    simp

/-- C1: in both `POST /transactions` and `PATCH /transactions/:id`, an
allocation set whose ratio sum deviates from 1 by more than `1e-9` is
rejected with status 400 and message `allocations ratio sum must be 1`
(the handler returns the error, producing no statement, so nothing is
inserted or updated), while a set whose ratio sum is within `1e-9` of 1
is never rejected with that error. -/
theorem C1_ratio_sum_validation (db : AccessDB) (u : String) :
    (∀ (input : TxInput) (freshId : String),
      (effectiveAllocs input.allocations input.fund_id ≠ [] →
        |ratioSum (effectiveAllocs input.allocations input.fund_id) - 1| > tol →
        postTransaction db u input freshId =
          .error ⟨400, "allocations ratio sum must be 1"⟩)
      ∧ (|ratioSum (effectiveAllocs input.allocations input.fund_id) - 1| ≤ tol →
        postTransaction db u input freshId ≠
          .error ⟨400, "allocations ratio sum must be 1"⟩))
    ∧ (∀ (txId : String) (body : TxPatch) (l : List AllocIn),
      body.fund_id = none → body.allocations = some l →
      (l ≠ [] → |ratioSum l - 1| > tol →
        patchTransaction db u txId body =
          .error ⟨400, "allocations ratio sum must be 1"⟩)
      ∧ (|ratioSum l - 1| ≤ tol →
        patchTransaction db u txId body ≠
          .error ⟨400, "allocations ratio sum must be 1"⟩)) := by
  constructor
  · intro input freshId
    constructor
    · intro hne hdev
      have h1 : ¬((effectiveAllocs input.allocations input.fund_id).length = 0) := by
        simpa [List.length_eq_zero] using hne
      rw [postTransaction]
      simp [h1, hdev]
    · intro hle
      by_cases hne : effectiveAllocs input.allocations input.fund_id = []
      · exfalso
        rw [hne] at hle
        rw [ratioSum] at hle
        simp [tol] at hle
        norm_num at hle
      · have h1 : ¬((effectiveAllocs input.allocations input.fund_id).length = 0) := by
          simpa [List.length_eq_zero] using hne
        have h2 : ¬(|ratioSum (effectiveAllocs input.allocations input.fund_id) - 1| > tol) :=
          not_lt.mpr hle
        rw [postTransaction]
        by_cases hg : (assertWriteForFunds db u
            (((effectiveAllocs input.allocations input.fund_id).map fun a => a.fund_id).dedup)).ok
        · simp [h1, h2, hg]
        · simp [h1, h2, hg]
  · intro txId body l hf ha
    constructor
    · intro hlne hdev
      have hl : ¬(l.length = 0) := by simpa [List.length_eq_zero] using hlne
      rw [patchTransaction, hf, ha]
      simp [hl, hdev]
    · intro hle
      have h2 : ¬(|ratioSum l - 1| > tol) := not_lt.mpr hle
      rw [patchTransaction, hf, ha]
      by_cases hl : l.length = 0
      · simp [hl]
      · by_cases hg : (assertWriteForFunds db u ((l.map fun a => a.fund_id).dedup)).ok
        · simp [hl, h2, patchWithAlloc, hg]
        · simp [hl, h2, patchWithAlloc, hg]

/-- C4: for a non-empty duplicate-free set of fund ids, the fund-scope
gate fails (status 403) exactly when the count of distinct requested funds
carrying `write`/`admin` scope differs from the size of the requested set;
and in `POST /transactions` a failing gate yields the 403 error before any
statement is produced, so no partial write over an allowed subset can
occur. -/
theorem C4_fund_scope_gate (db : AccessDB) (u : String) (fundIds : List String)
    (hne : fundIds ≠ []) (_hnd : fundIds.Nodup) :
    ((assertWriteForFunds db u fundIds).ok = false ↔
      grantedWriteCount db u fundIds ≠ fundIds.length)
    ∧ (∀ (input : TxInput) (freshId : String),
      fundIds = ((effectiveAllocs input.allocations input.fund_id).map
        fun a => a.fund_id).dedup →
      effectiveAllocs input.allocations input.fund_id ≠ [] →
      ¬(|ratioSum (effectiveAllocs input.allocations input.fund_id) - 1| > tol) →
      (assertWriteForFunds db u fundIds).ok = false →
      postTransaction db u input freshId =
        .error ⟨403, "forbidden: missing write/admin on one or more funds"⟩) := by
  constructor
  · have hlen : ¬(fundIds.length = 0) := by simpa [List.length_eq_zero] using hne
    rw [assertWriteForFunds]
    simp [hlen]
  · intro input freshId hfid hne2 hsum hgate
    have h1 : ¬((effectiveAllocs input.allocations input.fund_id).length = 0) := by
      simpa [List.length_eq_zero] using hne2
    rw [postTransaction]
    rw [← hfid]
    simp [h1, hsum, hgate]

/-- The `allowed_funds` CTE (role grants with any of the three scopes) and
membership in the effective-access view coincide: the scope filter
`scope in ('read','write','admin')` is exhaustive over the scope enum. -/
theorem allowedFund_eq_hasEffectiveAccess (db : AccessDB) (u f : String) :
    allowedFund db u f = hasEffectiveAccess db u f := by
  rw [Bool.eq_iff_iff]
  rw [allowedFund, hasEffectiveAccess]
  simp only [List.any_eq_true, Bool.and_eq_true, Bool.or_eq_true, beq_iff_eq]
  constructor
  · rintro ⟨p, hp, hu, g, hg, hcond⟩
    exact ⟨p, hp, hu, g, hg, hcond.1⟩
  · rintro ⟨p, hp, hu, g, hg, hcond⟩
    refine ⟨p, hp, hu, g, hg, hcond, ?_⟩
    cases h : g.2.2 <;> simp

/-- C3: in every list query (transactions, facturas, payments,
liquidaciones), a user holding a role named `admin` or `owner`
(case-insensitively) sees every row matching the request filters
regardless of fund grants, while a user holding no such role sees only
rows whose fund is granted to them through some role — never a row of an
ungranted fund. -/
theorem C3_list_visibility (db : AccessDB) (u : String) :
    (isAdmin db u = true →
      (∀ (filt : TxViewRow → Bool) (rows : List TxViewRow),
        listTransactionsQ db u filt rows = rows.filter filt)
      ∧ (∀ (filt : FacturaRow → Bool) (rows : List FacturaRow),
        listFacturasQ db u filt rows = rows.filter filt)
      ∧ (∀ (filt : PaymentRow → Bool) (rows : List PaymentRow),
        listPaymentsQ db u filt rows = rows.filter filt)
      ∧ (∀ (filt : LiqRow → Bool) (rows : List LiqRow),
        listLiquidacionesQ db u filt rows = rows.filter filt))
    ∧ (isAdmin db u = false →
      (∀ (filt : TxViewRow → Bool) (rows : List TxViewRow) r,
        r ∈ listTransactionsQ db u filt rows → allowedFund db u r.fund_id = true)
      ∧ (∀ (filt : FacturaRow → Bool) (rows : List FacturaRow) r,
        r ∈ listFacturasQ db u filt rows → allowedFund db u r.fund_id = true)
      ∧ (∀ (filt : PaymentRow → Bool) (rows : List PaymentRow) r,
        r ∈ listPaymentsQ db u filt rows → allowedFund db u r.fund_id = true)
      ∧ (∀ (filt : LiqRow → Bool) (rows : List LiqRow) r,
        r ∈ listLiquidacionesQ db u filt rows → allowedFund db u r.fund_id = true)) := by
  constructor
  · intro hadm
    refine ⟨fun filt rows => ?_, fun filt rows => ?_, fun filt rows => ?_,
      fun filt rows => ?_⟩ <;>
    · simp only [listTransactionsQ, listFacturasQ, listPaymentsQ, listLiquidacionesQ]
      apply List.filter_congr
      intro r _
      rw [hadm]
      simp
  · intro hadm
    refine ⟨fun filt rows r hr => ?_, fun filt rows r hr => ?_,
      fun filt rows r hr => ?_, fun filt rows r hr => ?_⟩
    · rw [allowedFund_eq_hasEffectiveAccess]
      simp only [listTransactionsQ] at hr
      have h2 := (List.mem_filter.mp hr).2
      rw [hadm] at h2
      simp at h2
      exact h2.1
    · simp only [listFacturasQ] at hr
      have h2 := (List.mem_filter.mp hr).2
      rw [hadm] at h2
      simp at h2
      exact h2.1
    · simp only [listPaymentsQ] at hr
      have h2 := (List.mem_filter.mp hr).2
      rw [hadm] at h2
      simp at h2
      exact h2.1
    · simp only [listLiquidacionesQ] at hr
      have h2 := (List.mem_filter.mp hr).2
      rw [hadm] at h2
      simp at h2
      exact h2.1

/-- C5: the CSV import outcome is independent of the caller's identity
and fund grants — the handler never consults them and never calls the
fund-scope gate — and a fully valid batch in non-dry-run mode yields, for
each row, one transaction insert and one allocation insert with ratio
exactly 1 to the row's fund. -/
theorem C5_import_ignores_grants :
    (∀ (db₁ db₂ : AccessDB) (u₁ u₂ : String) (freshId : Nat → String)
        (raws : List RawRow) (dryRun : Bool),
      importCSV db₁ u₁ freshId raws dryRun = importCSV db₂ u₂ freshId raws dryRun)
    ∧ (∀ (db : AccessDB) (u : String) (freshId : Nat → String) (raws : List RawRow),
      importErrors raws = [] →
      importCSV db u freshId raws false =
        .okInserted (importStmts freshId raws) (importValidRows raws).length
      ∧ (∀ txId fundId ratio,
          Stmt.insertAlloc txId fundId ratio ∈ importStmts freshId raws → ratio = 1)
      ∧ (∀ i raw row, raws.get? i = some raw → validateRow raw = .ok row →
          Stmt.insertTx (freshId i) row.account_id row.date row.description
            |row.amount| row.type_ row.category_id ∈ importStmts freshId raws
          ∧ Stmt.insertAlloc (freshId i) row.fund_id 1 ∈ importStmts freshId raws)) := by
  constructor
  · intro db₁ db₂ u₁ u₂ freshId raws dryRun
    rfl
  · intro db u freshId raws herr
    refine ⟨?_, ?_, ?_⟩
    · rw [importCSV]
      simp [herr]
    · intro txId fundId ratio hmem
      rw [importStmts, List.mem_flatMap] at hmem
      obtain ⟨p, hp1, hp2⟩ := hmem
      simp at hp2
      exact hp2.2.2
    · intro i raw row hget hval
      have hmem : (i, row) ∈ importValidRows raws := by
        rw [importValidRows, List.mem_filterMap]
        refine ⟨(i, raw), ?_, ?_⟩
        · exact List.mem_enum_iff_get?.mpr hget
        · simp [hval]
      constructor
      · rw [importStmts, List.mem_flatMap]
        exact ⟨(i, row), hmem, by simp⟩
      · rw [importStmts, List.mem_flatMap]
        exact ⟨(i, row), hmem, by simp⟩

/-- C8: a batch with at least one invalid record is rejected as a whole
with status 422: the report carries, for every failing record, its message
and its CSV line number `index + 2`, and the handler produces no insert
statements (only the `okInserted` outcome carries statements); in dry-run
mode no statements are ever produced either. -/
theorem C8_import_validation (db : AccessDB) (u : String) (freshId : Nat → String)
    (raws : List RawRow) :
    (∀ dryRun, importErrors raws ≠ [] →
      importCSV db u freshId raws dryRun =
        .invalid (importErrors raws) (importValidRows raws).length)
    ∧ (∀ i raw m, raws.get? i = some raw → validateRow raw = .error m →
        (i + 2, m) ∈ importErrors raws)
    ∧ (∀ stmts n, importCSV db u freshId raws true ≠ .okInserted stmts n) := by
  refine ⟨?_, ?_, ?_⟩
  · intro dryRun herr
    rw [importCSV]
    simp [herr]
  · intro i raw m hget hval
    rw [importErrors, List.mem_filterMap]
    refine ⟨(i, raw), List.mem_enum_iff_get?.mpr hget, ?_⟩
    simp [hval]
  · intro stmts n
    by_cases herr : importErrors raws = [] <;>
    · rw [importCSV]
      simp [herr]

/-- If some statement of the unit fails, the sequential run aborts. -/
theorem runStmts_eq_none (fails : Stmt → Bool) (stmts : List Stmt) :
    ∀ s : DbState, (∃ st ∈ stmts, fails st = true) → runStmts fails s stmts = none := by
  induction stmts with
  | nil =>
    intro s h
    obtain ⟨st, hm, _⟩ := h
    cases hm
  | cons st rest ih =>
    intro s h
    rw [runStmts]
    by_cases hf : fails st = true
    · simp [hf]
    · obtain ⟨st', hm, hf'⟩ := h
      rcases List.mem_cons.mp hm with rfl | hm'
      · exact absurd hf' hf
      · simp only [Bool.not_eq_true] at hf
        simp [hf]
        exact ih _ ⟨st', hm', hf'⟩

/-- A successful sequential run is the left fold of the statements. -/
theorem runStmts_eq_some (fails : Stmt → Bool) (stmts : List Stmt) :
    ∀ (s s' : DbState), runStmts fails s stmts = some s' →
      s' = stmts.foldl applyStmt s := by
  induction stmts with
  | nil =>
    intro s s' h
    rw [runStmts] at h
    cases h
    rfl
  | cons st rest ih =>
    intro s s' h
    rw [runStmts] at h
    by_cases hf : fails st = true
    · simp [hf] at h
    · simp only [Bool.not_eq_true] at hf
      simp [hf] at h
      rw [List.foldl_cons]
      exact ih _ _ h

/-- Folding the ratio-1-per-element allocation inserts appends exactly the
corresponding rows. -/
theorem allocsFor_foldl_inserts (txId : String) (l : List AllocIn) :
    ∀ s : DbState,
      allocsFor ((l.map fun a => Stmt.insertAlloc txId a.fund_id a.ratio).foldl
        applyStmt s) txId
      = allocsFor s txId ++ l.map fun a => AllocRow.mk txId a.fund_id a.ratio := by
  induction l with
  | nil =>
    intro s
    simp
  | cons a rest ih =>
    intro s
    rw [List.map_cons, List.foldl_cons, ih]
    rw [allocsFor, applyStmt]
    simp only [allocsFor, List.filter_append]
    simp [List.append_assoc]

/-- Replacing a transaction's allocations (update, delete-all, reinsert)
leaves exactly the new rows for that transaction. -/
theorem allocsFor_replace (txId : String) (p : UpdatePatch) (l : List AllocIn)
    (s : DbState) :
    allocsFor ((Stmt.updateTx txId p :: Stmt.deleteAllocs txId
        :: l.map fun a => Stmt.insertAlloc txId a.fund_id a.ratio).foldl
      applyStmt s) txId
    = l.map fun a => AllocRow.mk txId a.fund_id a.ratio := by
  rw [List.foldl_cons, List.foldl_cons, allocsFor_foldl_inserts]
  have hempty : allocsFor (applyStmt (applyStmt s (Stmt.updateTx txId p))
      (Stmt.deleteAllocs txId)) txId = [] := by
    rw [applyStmt, applyStmt, allocsFor]
    simp [List.filter_filter]
  rw [hempty, List.nil_append]

/-- C6: reassigning a transaction's allocations through
`PATCH /transactions/:id` is atomic. For any statement-failure oracle,
the committed state either equals the initial state (any failure → the
whole `withUser` unit rolls back, so the original allocation rows
survive) or carries exactly the full new allocation set for that
transaction — never a half-replaced set. -/
theorem C6_realloc_atomicity (db : AccessDB) (u txId : String) (body : TxPatch)
    (stmts : List Stmt) (s0 : DbState) (fails : Stmt → Bool)
    (hok : patchTransaction db u txId body = .ok stmts)
    (hre : (effectiveNewAlloc body).isSome = true) :
    ((∃ st ∈ stmts, fails st = true) → (withUserRun fails s0 (.ok stmts)).1 = s0)
    ∧ (allocsFor (withUserRun fails s0 (.ok stmts)).1 txId = allocsFor s0 txId
       ∨ ∃ l, effectiveNewAlloc body = some l
           ∧ allocsFor (withUserRun fails s0 (.ok stmts)).1 txId
             = l.map fun a => AllocRow.mk txId a.fund_id a.ratio) := by
  have hroll : (∃ st ∈ stmts, fails st = true) →
      (withUserRun fails s0 (.ok stmts)).1 = s0 := by
    intro h
    rw [withUserRun, runStmts_eq_none fails stmts s0 h]
  refine ⟨hroll, ?_⟩
  by_cases hfail : ∃ st ∈ stmts, fails st = true
  · left
    rw [hroll hfail]
  · -- no statement fails: the run commits the full fold
    have hrun : ∀ s', runStmts fails s0 stmts = some s' →
        s' = stmts.foldl applyStmt s0 := runStmts_eq_some fails stmts s0
    have hshape : ∃ l, effectiveNewAlloc body = some l
        ∧ stmts = Stmt.updateTx txId (updateFieldsOf body) :: Stmt.deleteAllocs txId
            :: l.map fun a => Stmt.insertAlloc txId a.fund_id a.ratio := by
      cases hfid : body.fund_id with
      | some f =>
        simp only [patchTransaction, hfid, patchWithAlloc] at hok
        by_cases hg : (assertWriteForFunds db u
            ((([⟨f, 1⟩] : List AllocIn).map fun a => a.fund_id).dedup)).ok = true
        · rw [if_pos hg] at hok
          simp only [Except.ok.injEq] at hok
          exact ⟨[⟨f, 1⟩], by simp [effectiveNewAlloc, hfid], hok.symm⟩
        · rw [if_neg hg] at hok
          simp at hok
      | none =>
        cases hall : body.allocations with
        | some l =>
          simp only [patchTransaction, hfid, hall] at hok
          by_cases hl : l.length = 0
          · rw [if_pos hl] at hok
            simp at hok
          · rw [if_neg hl] at hok
            by_cases hs : |ratioSum l - 1| > tol
            · rw [if_pos hs] at hok
              simp at hok
            · rw [if_neg hs] at hok
              simp only [patchWithAlloc] at hok
              by_cases hg : (assertWriteForFunds db u
                  ((l.map fun a => a.fund_id).dedup)).ok = true
              · rw [if_pos hg] at hok
                simp only [Except.ok.injEq] at hok
                exact ⟨l, by simp [effectiveNewAlloc, hfid, hall], hok.symm⟩
              · rw [if_neg hg] at hok
                simp at hok
        | none =>
          rw [effectiveNewAlloc, hfid, hall] at hre
          cases hre
    obtain ⟨l, hl, hstmts⟩ := hshape
    right
    refine ⟨l, hl, ?_⟩
    have hsome : runStmts fails s0 stmts = some (stmts.foldl applyStmt s0) := by
      cases hr : runStmts fails s0 stmts with
      | none =>
        exfalso
        -- a run can only abort when some statement fails
        have : ∀ (st : List Stmt) (s : DbState), runStmts fails s st = none →
            ∃ x ∈ st, fails x = true := by
          intro st
          induction st with
          | nil =>
            intro s h
            rw [runStmts] at h
            cases h
          | cons a rest ih =>
            intro s h
            rw [runStmts] at h
            by_cases hf : fails a = true
            · exact ⟨a, List.mem_cons_self a rest, hf⟩
            · simp only [Bool.not_eq_true] at hf
              simp [hf] at h
              obtain ⟨x, hx, hfx⟩ := ih _ h
              exact ⟨x, List.mem_cons_of_mem a hx, hfx⟩
        exact hfail (this stmts s0 hr)
      | some s' =>
        rw [hrun s' hr]
    rw [withUserRun, hsome]
    rw [hstmts]
    exact allocsFor_replace txId (updateFieldsOf body) l s0

/-! ### Lemmas about the loose amount parser -/

theorem isKept_of_digit {c : Char} (h : c.isDigit = true) : isKept c = true := by
  simp [isKept, h]

theorem not_mem_of_all_digit {l : List Char} (h : l.all Char.isDigit = true)
    {c : Char} (hc : c.isDigit = false) : c ∉ l := by
  intro hm
  rw [List.all_eq_true] at h
  have := h c hm
  rw [hc] at this
  cases this

theorem filter_isKept_all_digit {l : List Char} (h : l.all Char.isDigit = true) :
    l.filter isKept = l := by
  apply List.filter_eq_self.mpr
  intro x hx
  rw [List.all_eq_true] at h
  exact isKept_of_digit (h x hx)

theorem filter_out_all_digit {l : List Char} (h : l.all Char.isDigit = true)
    {c : Char} (hc : c.isDigit = false) :
    (l.filter fun x => !(x == c)) = l := by
  apply List.filter_eq_self.mpr
  intro x hx
  rw [List.all_eq_true] at h
  have hxd := h x hx
  have : ¬(x = c) := fun he => by rw [he, hc] at hxd; cases hxd
  simp [this]

theorem contains_eq_true_of_mem {l : List Char} {c : Char} (h : c ∈ l) :
    l.contains c = true := by
  simpa [List.contains] using List.elem_eq_true_of_mem h

theorem contains_eq_false_of_not_mem {l : List Char} {c : Char} (h : c ∉ l) :
    l.contains c = false := by
  rw [Bool.eq_false_iff]
  intro hc
  rw [List.contains] at hc
  exact h (List.mem_of_elem_eq_true hc)

theorem lastIndexOf_of_not_mem {c : Char} {l : List Char} (h : c ∉ l) :
    lastIndexOf c l = -1 := by
  induction l with
  | nil => rfl
  | cons x xs ih =>
    rw [lastIndexOf]
    have hx : ¬(x = c) := fun he => h (he ▸ List.mem_cons_self x xs)
    have hxs : c ∉ xs := fun hm => h (List.mem_cons_of_mem x hm)
    rw [ih hxs]
    simp [hx]

theorem lastIndexOf_append_last {c : Char} (l₁ l₂ : List Char) (h : c ∉ l₂) :
    lastIndexOf c (l₁ ++ c :: l₂) = (l₁.length : Int) := by
  induction l₁ with
  | nil =>
    rw [List.nil_append, lastIndexOf, lastIndexOf_of_not_mem h]
    simp
  | cons x xs ih =>
    rw [List.cons_append, lastIndexOf, ih]
    have : ((xs.length : Int) ≥ 0) := Int.ofNat_nonneg xs.length
    rw [if_pos this]
    simp

theorem replaceFirst_append {a b : Char} (l₁ l₂ : List Char) (h : a ∉ l₁) :
    replaceFirst a b (l₁ ++ a :: l₂) = l₁ ++ b :: l₂ := by
  induction l₁ with
  | nil =>
    rw [List.nil_append, replaceFirst]
    simp
  | cons x xs ih =>
    have hx : ¬(x = a) := fun he => h (he ▸ List.mem_cons_self x xs)
    have hxs : a ∉ xs := fun hm => h (List.mem_cons_of_mem x hm)
    rw [List.cons_append, replaceFirst, ih hxs]
    simp [hx]

theorem splitOnDot_no_dot {l : List Char} (h : '.' ∉ l) :
    splitOnDot l = (l, none) := by
  induction l with
  | nil => rfl
  | cons x xs ih =>
    have hx : ¬(x = '.') := fun he => h (he ▸ List.mem_cons_self x xs)
    have hxs : ('.' : Char) ∉ xs := fun hm => h (List.mem_cons_of_mem x hm)
    rw [splitOnDot, ih hxs]
    simp [hx]

theorem splitOnDot_append {ip fp : List Char} (h : '.' ∉ ip) :
    splitOnDot (ip ++ '.' :: fp) = (ip, some fp) := by
  induction ip with
  | nil =>
    rw [List.nil_append, splitOnDot]
    simp
  | cons x xs ih =>
    have hx : ¬(x = '.') := fun he => h (he ▸ List.mem_cons_self x xs)
    have hxs : ('.' : Char) ∉ xs := fun hm => h (List.mem_cons_of_mem x hm)
    rw [List.cons_append, splitOnDot, ih hxs]
    simp [hx]

theorem jsNumAbs_digits_dot {ip fp : List Char} (hip : ip.all Char.isDigit = true)
    (hfp : fp.all Char.isDigit = true) (hne : ip ≠ []) :
    jsNumAbs (ip ++ '.' :: fp) = some (digitsVal ip + digitsVal fp / 10 ^ fp.length) := by
  have hdot : ('.' : Char) ∉ ip := not_mem_of_all_digit hip rfl
  rw [jsNumAbs]
  rw [splitOnDot_append hdot]
  simp [hne, hip, hfp]

theorem jsNumber_digits_dot {a b : List Char} (ha : a.all Char.isDigit = true)
    (hb : b.all Char.isDigit = true) (hane : a ≠ []) :
    jsNumber (a ++ '.' :: b) = some (digitsVal a + digitsVal b / 10 ^ b.length) := by
  cases a with
  | nil => exact absurd rfl hane
  | cons x xs =>
    rw [List.cons_append, jsNumber]
    have hx : x.isDigit = true := by
      rw [List.all_eq_true] at ha
      exact ha x (List.mem_cons_self x xs)
    have hxm : ¬(x = '-') := fun he => by rw [he] at hx; cases hx
    have hxm' : ¬((x == '-') = true) := by simp [hxm]
    rw [if_neg hxm']
    rw [← List.cons_append]
    exact jsNumAbs_digits_dot ha hb (by simp)

theorem parseAmountLooseL_dot_only {a b : List Char} (ha : a.all Char.isDigit = true)
    (hb : b.all Char.isDigit = true) (hane : a ≠ []) (_hbne : b ≠ []) :
    parseAmountLooseL (a ++ '.' :: b)
      = some (digitsVal a + digitsVal b / 10 ^ b.length) := by
  have hcd : (',' : Char).isDigit = false := by decide
  have hlne : ¬(a ++ '.' :: b = []) := by simp
  have hdotmem : ('.' : Char) ∈ a ++ '.' :: b := by simp
  have hcomma : (',' : Char) ∉ a ++ '.' :: b := by
    intro hm
    rcases List.mem_append.mp hm with h | h
    · exact not_mem_of_all_digit ha hcd h
    · rcases List.mem_cons.mp h with h' | h'
      · cases h'
      · exact not_mem_of_all_digit hb hcd h'
  have hfil : (a ++ '.' :: b).filter isKept = a ++ '.' :: b := by
    rw [List.filter_append, filter_isKept_all_digit ha,
      List.filter_cons_of_pos (by decide), filter_isKept_all_digit hb]
  have hfil2 : ((a ++ '.' :: b).filter fun c => !(c == ',')) = a ++ '.' :: b := by
    rw [List.filter_append, filter_out_all_digit ha hcd,
      List.filter_cons_of_pos (by decide), filter_out_all_digit hb hcd]
  rw [parseAmountLooseL, if_neg hlne]
  simp only [hfil, contains_eq_true_of_mem hdotmem,
    contains_eq_false_of_not_mem hcomma, Bool.and_false, Bool.false_and,
    if_false, Bool.false_eq_true, hfil2]
  exact jsNumber_digits_dot ha hb hane

theorem parseAmountLooseL_comma_only {a b : List Char} (ha : a.all Char.isDigit = true)
    (hb : b.all Char.isDigit = true) (hane : a ≠ []) (_hbne : b ≠ []) :
    parseAmountLooseL (a ++ ',' :: b)
      = some (digitsVal a + digitsVal b / 10 ^ b.length) := by
  have hcd : (',' : Char).isDigit = false := by decide
  have hdd : ('.' : Char).isDigit = false := by decide
  have hlne : ¬(a ++ ',' :: b = []) := by simp
  have hcommamem : (',' : Char) ∈ a ++ ',' :: b := by simp
  have hdot : ('.' : Char) ∉ a ++ ',' :: b := by
    intro hm
    rcases List.mem_append.mp hm with h | h
    · exact not_mem_of_all_digit ha hdd h
    · rcases List.mem_cons.mp h with h' | h'
      · cases h'
      · exact not_mem_of_all_digit hb hdd h'
  have hfil : (a ++ ',' :: b).filter isKept = a ++ ',' :: b := by
    rw [List.filter_append, filter_isKept_all_digit ha,
      List.filter_cons_of_pos (by decide), filter_isKept_all_digit hb]
  have hfil2 : ((a ++ ',' :: b).filter fun c => !(c == '.')) = a ++ ',' :: b := by
    rw [List.filter_append, filter_out_all_digit ha hdd,
      List.filter_cons_of_pos (by decide), filter_out_all_digit hb hdd]
  have hrep : replaceFirst ',' '.' (a ++ ',' :: b) = a ++ '.' :: b :=
    replaceFirst_append a b (not_mem_of_all_digit ha hcd)
  rw [parseAmountLooseL, if_neg hlne]
  simp only [hfil, contains_eq_true_of_mem hcommamem,
    contains_eq_false_of_not_mem hdot, Bool.false_and, Bool.and_false,
    if_false, Bool.false_eq_true, if_true, hfil2, hrep]
  exact jsNumber_digits_dot ha hb hane

theorem parseAmountLooseL_dot_comma {a b c : List Char}
    (ha : a.all Char.isDigit = true) (hb : b.all Char.isDigit = true)
    (hc : c.all Char.isDigit = true) (hane : a ≠ []) (_hbne : b ≠ [])
    (_hcne : c ≠ []) :
    parseAmountLooseL (a ++ '.' :: (b ++ ',' :: c))
      = some (digitsVal (a ++ b) + digitsVal c / 10 ^ c.length) := by
  have hcd : (',' : Char).isDigit = false := by decide
  have hdd : ('.' : Char).isDigit = false := by decide
  have hlne : ¬(a ++ '.' :: (b ++ ',' :: c) = []) := by simp
  have hdotmem : ('.' : Char) ∈ a ++ '.' :: (b ++ ',' :: c) := by simp
  have hcommamem : (',' : Char) ∈ a ++ '.' :: (b ++ ',' :: c) := by simp
  have hfil : (a ++ '.' :: (b ++ ',' :: c)).filter isKept
      = a ++ '.' :: (b ++ ',' :: c) := by
    rw [List.filter_append, filter_isKept_all_digit ha,
      List.filter_cons_of_pos (by decide), List.filter_append,
      filter_isKept_all_digit hb, List.filter_cons_of_pos (by decide),
      filter_isKept_all_digit hc]
  have hlastc : lastIndexOf ',' (a ++ '.' :: (b ++ ',' :: c))
      = ((a ++ '.' :: b).length : Int) := by
    have hassoc : a ++ '.' :: (b ++ ',' :: c) = (a ++ '.' :: b) ++ ',' :: c := by
      simp
    rw [hassoc]
    exact lastIndexOf_append_last _ _ (not_mem_of_all_digit hc hcd)
  have hlastd : lastIndexOf '.' (a ++ '.' :: (b ++ ',' :: c))
      = (a.length : Int) := by
    apply lastIndexOf_append_last
    intro hm
    rcases List.mem_append.mp hm with h | h
    · exact not_mem_of_all_digit hb hdd h
    · rcases List.mem_cons.mp h with h' | h'
      · cases h'
      · exact not_mem_of_all_digit hc hdd h'
  have hcmp : lastIndexOf ',' (a ++ '.' :: (b ++ ',' :: c))
      > lastIndexOf '.' (a ++ '.' :: (b ++ ',' :: c)) := by
    rw [hlastc, hlastd]
    simp [List.length_append]
  have hfil2 : ((a ++ '.' :: (b ++ ',' :: c)).filter fun x => !(x == '.'))
      = (a ++ b) ++ ',' :: c := by
    rw [List.filter_append, filter_out_all_digit ha hdd,
      List.filter_cons_of_neg (by decide), List.filter_append,
      filter_out_all_digit hb hdd, List.filter_cons_of_pos (by decide),
      filter_out_all_digit hc hdd, List.append_assoc]
  have hrep : replaceFirst ',' '.' ((a ++ b) ++ ',' :: c) = (a ++ b) ++ '.' :: c := by
    apply replaceFirst_append
    intro hm
    rcases List.mem_append.mp hm with h | h
    · exact not_mem_of_all_digit ha hcd h
    · exact not_mem_of_all_digit hb hcd h
  have hab : (a ++ b).all Char.isDigit = true := by
    rw [List.all_append, ha, hb]
    rfl
  rw [parseAmountLooseL, if_neg hlne]
  simp only [hfil, contains_eq_true_of_mem hdotmem,
    contains_eq_true_of_mem hcommamem, Bool.and_self, if_pos hcmp, hfil2, hrep]
  exact jsNumber_digits_dot hab hc (by simp [hane])

theorem parseAmountLooseL_comma_dot {a b c : List Char}
    (ha : a.all Char.isDigit = true) (hb : b.all Char.isDigit = true)
    (hc : c.all Char.isDigit = true) (hane : a ≠ []) (_hbne : b ≠ [])
    (_hcne : c ≠ []) :
    parseAmountLooseL (a ++ ',' :: (b ++ '.' :: c))
      = some (digitsVal (a ++ b) + digitsVal c / 10 ^ c.length) := by
  have hcd : (',' : Char).isDigit = false := by decide
  have hdd : ('.' : Char).isDigit = false := by decide
  have hlne : ¬(a ++ ',' :: (b ++ '.' :: c) = []) := by simp
  have hdotmem : ('.' : Char) ∈ a ++ ',' :: (b ++ '.' :: c) := by simp
  have hcommamem : (',' : Char) ∈ a ++ ',' :: (b ++ '.' :: c) := by simp
  have hfil : (a ++ ',' :: (b ++ '.' :: c)).filter isKept
      = a ++ ',' :: (b ++ '.' :: c) := by
    rw [List.filter_append, filter_isKept_all_digit ha,
      List.filter_cons_of_pos (by decide), List.filter_append,
      filter_isKept_all_digit hb, List.filter_cons_of_pos (by decide),
      filter_isKept_all_digit hc]
  have hlastc : lastIndexOf ',' (a ++ ',' :: (b ++ '.' :: c))
      = (a.length : Int) := by
    apply lastIndexOf_append_last
    intro hm
    rcases List.mem_append.mp hm with h | h
    · exact not_mem_of_all_digit hb hcd h
    · rcases List.mem_cons.mp h with h' | h'
      · cases h'
      · exact not_mem_of_all_digit hc hcd h'
  have hlastd : lastIndexOf '.' (a ++ ',' :: (b ++ '.' :: c))
      = ((a ++ ',' :: b).length : Int) := by
    have hassoc : a ++ ',' :: (b ++ '.' :: c) = (a ++ ',' :: b) ++ '.' :: c := by
      simp
    rw [hassoc]
    exact lastIndexOf_append_last _ _ (not_mem_of_all_digit hc hdd)
  have hcmp : ¬(lastIndexOf ',' (a ++ ',' :: (b ++ '.' :: c))
      > lastIndexOf '.' (a ++ ',' :: (b ++ '.' :: c))) := by
    rw [hlastc, hlastd]
    simp [List.length_append]
    omega
  have hfil2 : ((a ++ ',' :: (b ++ '.' :: c)).filter fun x => !(x == ','))
      = (a ++ b) ++ '.' :: c := by
    rw [List.filter_append, filter_out_all_digit ha hcd,
      List.filter_cons_of_neg (by decide), List.filter_append,
      filter_out_all_digit hb hcd, List.filter_cons_of_pos (by decide),
      filter_out_all_digit hc hcd, List.append_assoc]
  have hab : (a ++ b).all Char.isDigit = true := by
    rw [List.all_append, ha, hb]
    rfl
  rw [parseAmountLooseL, if_neg hlne]
  simp only [hfil, contains_eq_true_of_mem hdotmem,
    contains_eq_true_of_mem hcommamem, Bool.and_self, if_neg hcmp, hfil2]
  exact jsNumber_digits_dot hab hc (by simp [hane])

/-- C7: the loose amount parser strips everything but digits, dot, comma
and minus; with both separators present, the one whose rightmost
occurrence is later is the decimal separator and the other is removed as a
thousands separator; with only a comma it is the decimal separator; with
only a dot it is the decimal separator. In particular `"40.000,00"` parses
to `40000.00`, `"40,000.00"` to `40000.00`, and `"120"` to `120`. -/
theorem C7_parse_amount_loose :
    (parseAmountLoose "40.000,00" = some 40000
     ∧ parseAmountLoose "40,000.00" = some 40000
     ∧ parseAmountLoose "120" = some 120)
    ∧ (∀ a b : List Char, a.all Char.isDigit = true → b.all Char.isDigit = true →
        a ≠ [] → b ≠ [] →
        parseAmountLooseL (a ++ '.' :: b)
          = some (digitsVal a + digitsVal b / 10 ^ b.length)
        ∧ parseAmountLooseL (a ++ ',' :: b)
          = some (digitsVal a + digitsVal b / 10 ^ b.length))
    ∧ (∀ a b c : List Char, a.all Char.isDigit = true → b.all Char.isDigit = true →
        c.all Char.isDigit = true → a ≠ [] → b ≠ [] → c ≠ [] →
        parseAmountLooseL (a ++ '.' :: (b ++ ',' :: c))
          = some (digitsVal (a ++ b) + digitsVal c / 10 ^ c.length)
        ∧ parseAmountLooseL (a ++ ',' :: (b ++ '.' :: c))
          = some (digitsVal (a ++ b) + digitsVal c / 10 ^ c.length)) := by
  refine ⟨⟨?_, ?_, ?_⟩, ?_, ?_⟩
  · with_unfolding_all rfl
  · with_unfolding_all rfl
  · with_unfolding_all rfl
  · intro a b ha hb hane hbne
    exact ⟨parseAmountLooseL_dot_only ha hb hane hbne,
      parseAmountLooseL_comma_only ha hb hane hbne⟩
  · intro a b c ha hb hc hane hbne hcne
    exact ⟨parseAmountLooseL_dot_comma ha hb hc hane hbne hcne,
      parseAmountLooseL_comma_dot ha hb hc hane hbne hcne⟩

/-! ## Concrete witnesses -/

/-- A user holding an admin-named role with no explicit fund grants. -/
def dbAdminW : AccessDB := ⟨[("u1", "r1")], [("r1", "Admin")], []⟩

/-- A non-admin user granted `write` on fund `f1` only. -/
def dbWriterW : AccessDB :=
  ⟨[("u2", "r2")], [("r2", "member")], [("r2", "f1", Scope.write)]⟩

/-- A POST body whose allocation ratios sum to 1/2. -/
def inputBadSum : TxInput :=
  ⟨"a1", "2024-01-01", none, 100, TxType.credit, none, none,
   some [⟨"f1", 1 / 2⟩]⟩

theorem C1_ratio_sum_validation_witness :
    postTransaction dbWriterW "u2" inputBadSum "t1" =
      .error ⟨400, "allocations ratio sum must be 1"⟩ :=
  ((C1_ratio_sum_validation dbWriterW "u2").1 inputBadSum "t1").1
    (by with_unfolding_all decide) (by with_unfolding_all decide)

/-- A POST body with neither allocations nor fund_id. -/
def inputNoFund : TxInput :=
  ⟨"a1", "2024-01-01", none, 100, TxType.credit, none, none, none⟩

/-- A POST body with a non-empty allocations array. -/
def inputWithAllocs : TxInput :=
  ⟨"a1", "2024-01-01", none, 100, TxType.credit, none, none,
   some [⟨"f1", 1⟩]⟩

theorem C2_effective_allocation_set_witness :
    effectiveAllocs inputWithAllocs.allocations inputWithAllocs.fund_id
      = [⟨"f1", 1⟩]
    ∧ postTransaction dbWriterW "u2" inputNoFund "t1" =
        .error ⟨400, "a fund is required (use fund_id or allocations)"⟩ :=
  ⟨(C2_effective_allocation_set dbWriterW "u2" inputWithAllocs "t1").1
      [⟨"f1", 1⟩] rfl (by decide),
   (C2_effective_allocation_set dbWriterW "u2" inputNoFund "t1").2.2
      (Or.inl rfl) rfl⟩

theorem C3_list_visibility_witness :
    listTransactionsQ dbAdminW "u1" (fun _ => true)
        [⟨"t1", "f9"⟩] = [⟨"t1", "f9"⟩]
    ∧ allowedFund dbWriterW "u2" "f1" = true :=
  ⟨(((C3_list_visibility dbAdminW "u1").1 (by with_unfolding_all rfl)).1
      (fun _ => true) [⟨"t1", "f9"⟩]).trans (by with_unfolding_all rfl),
   ((C3_list_visibility dbWriterW "u2").2 (by with_unfolding_all rfl)).2.2.1
      (fun _ => true) [⟨"p1", "f1"⟩] ⟨"p1", "f1"⟩
      (by with_unfolding_all decide)⟩

/-- A POST body requesting the ungranted fund `f2`. -/
def inputF2 : TxInput :=
  ⟨"a1", "2024-01-01", none, 100, TxType.credit, some "f2", none, none⟩

theorem C4_fund_scope_gate_witness :
    postTransaction dbWriterW "u2" inputF2 "t1" =
      .error ⟨403, "forbidden: missing write/admin on one or more funds"⟩ :=
  (C4_fund_scope_gate dbWriterW "u2" ["f2"] (by decide) (by decide)).2
    inputF2 "t1" (by with_unfolding_all rfl) (by with_unfolding_all decide)
    (by with_unfolding_all decide) (by with_unfolding_all rfl)

/-- A fully valid CSV record. -/
def rawValidW : RawRow :=
  ⟨some "123e4567-e89b-12d3-a456-426614174000", some "2024-01-01", none, none,
   some "40.000,00", some "Credit", none,
   some "123e4567-e89b-12d3-a456-426614174000"⟩

theorem C5_import_ignores_grants_witness :
    importCSV dbWriterW "u2" (fun _ => "t0") [rawValidW] false =
      .okInserted (importStmts (fun _ => "t0") [rawValidW])
        (importValidRows [rawValidW]).length :=
  (C5_import_ignores_grants.2 dbWriterW "u2" (fun _ => "t0") [rawValidW]
    (by with_unfolding_all rfl)).1

/-- A CSV record missing its `account_id` column. -/
def rawMissingAccountW : RawRow :=
  ⟨none, some "2024-01-01", none, none, some "120", some "credit", none,
   some "123e4567-e89b-12d3-a456-426614174000"⟩

theorem C8_import_validation_witness :
    ((1 : Nat) + 2, "account_id: Required") ∈
      importErrors [rawValidW, rawMissingAccountW] :=
  (C8_import_validation dbWriterW "u2" (fun _ => "t0")
      [rawValidW, rawMissingAccountW]).2.1 1 rawMissingAccountW
    "account_id: Required" rfl (by with_unfolding_all rfl)

/-- A PATCH body reassigning the transaction to fund `f1`. -/
def bodyReassignW : TxPatch :=
  ⟨none, none, none, none, none, some "f1", none, none⟩

/-- The statement list the reassignment PATCH produces. -/
def stmtsReassignW : List Stmt :=
  [Stmt.updateTx "t1" ⟨none, none, none, none, none, none⟩,
   Stmt.deleteAllocs "t1",
   Stmt.insertAlloc "t1" "f1" 1]

/-- An initial state holding one allocation row for the transaction. -/
def s0W : DbState := ⟨[], [⟨"t1", "f9", 1⟩]⟩

theorem C6_realloc_atomicity_witness :
    ((∃ st ∈ stmtsReassignW, (fun _ => false) st = true) →
      (withUserRun (fun _ => false) s0W (.ok stmtsReassignW)).1 = s0W)
    ∧ (allocsFor (withUserRun (fun _ => false) s0W (.ok stmtsReassignW)).1 "t1"
        = allocsFor s0W "t1"
      ∨ ∃ l, effectiveNewAlloc bodyReassignW = some l
          ∧ allocsFor (withUserRun (fun _ => false) s0W (.ok stmtsReassignW)).1 "t1"
            = l.map fun a => AllocRow.mk "t1" a.fund_id a.ratio) :=
  C6_realloc_atomicity dbWriterW "u2" "t1" bodyReassignW stmtsReassignW s0W
    (fun _ => false) (by with_unfolding_all rfl) rfl

theorem C7_parse_amount_loose_witness :
    parseAmountLooseL (['4', '0'] ++ '.' :: (['0', '0', '0'] ++ ',' :: ['0', '0']))
      = some (digitsVal (['4', '0'] ++ ['0', '0', '0'])
          + digitsVal ['0', '0'] / 10 ^ (['0', '0'] : List Char).length) :=
  (C7_parse_amount_loose.2.2 ['4', '0'] ['0', '0', '0'] ['0', '0']
    (by decide) (by decide) (by decide) (by decide) (by decide) (by decide)).1

end AdministerBack
